import Mathlib

/-!
Shallow embedding of the gem5 data-transfer-unit model
(`src/mem/dtu/dtu.cc`): command decoding, the transmit and receive
pipelines, the per-endpoint ring-buffer bookkeeping and the request
tagging discipline, followed by proofs of the specification's testable
properties.

Machine integers are modelled as `Nat` with explicit reductions:
`% regMod` where the source computes in the 64-bit `RegFile::reg_t` /
`Addr` domain and the computation can exceed it, and `% u32Mod` where the
source narrows a register value into a C `unsigned` local.  A simulated
`panic` or failing `assert` is modelled as an `Except.error` carrying the
error kind the specification assigns to that condition; side effects that
the source performed before the abort are irrelevant because the
simulation halts, so an erroneous run carries no effect log.
-/

namespace DtuModel

/-- Width modulus of a 64-bit register word (`RegFile::reg_t`, `Addr`). -/
def regMod : Nat := 2 ^ 64

/-- Width modulus of a C `unsigned` (32-bit) local variable. -/
def u32Mod : Nat := 2 ^ 32

/-- DTU-global registers (`DtuReg::COMMAND`, `DtuReg::STATUS`). -/
inductive DtuReg where
  | COMMAND
  | STATUS
deriving DecidableEq, Repr

/-- Per-endpoint registers (`EpReg`). -/
inductive EpReg where
  | MODE
  | MESSAGE_ADDR
  | MESSAGE_SIZE
  | TARGET_COREID
  | TARGET_EPID
  | BUFFER_ADDR
  | BUFFER_SIZE
  | BUFFER_READ_PTR
  | BUFFER_WRITE_PTR
  | BUFFER_MESSAGE_COUNT
deriving DecidableEq, Repr

/-- The register file: global registers plus one register bank per
endpoint.  Stored words are 64 bits wide, so writes truncate. -/
structure RegFile where
  dtuRegs : DtuReg → Nat
  epRegs : Nat → EpReg → Nat

def RegFile.readDtuReg (rf : RegFile) (r : DtuReg) : Nat := rf.dtuRegs r

def RegFile.setDtuReg (rf : RegFile) (r : DtuReg) (v : Nat) : RegFile :=
  { rf with dtuRegs := fun r2 => if r2 = r then v % regMod else rf.dtuRegs r2 }

def RegFile.readEpReg (rf : RegFile) (ep : Nat) (r : EpReg) : Nat := rf.epRegs ep r

def RegFile.setEpReg (rf : RegFile) (ep : Nat) (r : EpReg) (v : Nat) : RegFile :=
  { rf with
    epRegs := fun ep2 r2 => if ep2 = ep ∧ r2 = r then v % regMod else rf.epRegs ep2 r2 }

/-- Static configuration of one DTU instance (constructor parameters of
`Dtu::Dtu` plus the compile-time constants of the header). -/
structure DtuConfig where
  numEndpoints : Nat
  maxMessageSize : Nat
  numCmdOpcodeBits : Nat
  numCmdEpidBits : Nat
  numCmdOffsetBits : Nat
  coreId : Nat
  cpuBaseAddr : Nat
  nocEpAddrBits : Nat
  atomicMode : Bool

/-- Decoded command triple (`Dtu::Command`). -/
structure Command where
  opcode : Nat
  epId : Nat
  offset : Nat
deriving DecidableEq, Repr

/-- Modelled from the spec: the numeric opcode values of
`Dtu::CommandOpcode` (declared in the header, which is not part of the
sources here); the dispatcher states are listed as Idle, StartOperation,
IncrementReadPtr in that order. -/
def opcodeIDLE : Nat := 0

/-- Modelled from the spec: see `opcodeIDLE`. -/
def opcodeSTART_OPERATION : Nat := 1

/-- Modelled from the spec: see `opcodeIDLE`. -/
def opcodeINC_READ_PTR : Nat := 2

/-- Modelled from the spec: the numeric values of `Dtu::EpMode`
(declared in the missing header); ReceiveMessage, TransmitMessage in
declaration order. -/
def modeRECEIVE_MESSAGE : Nat := 0

/-- Modelled from the spec: see `modeRECEIVE_MESSAGE`. -/
def modeTRANSMIT_MESSAGE : Nat := 1

/-- Wire-format frame prefix (`Dtu::MessageHeader`): 1 byte source core
id, 1 byte source endpoint id, 2 bytes length. -/
structure MessageHeader where
  coreId : Nat
  epId : Nat
  length : Nat
deriving DecidableEq, Repr

/-- Modelled from the spec: `sizeof(MessageHeader)`, a fixed 4-byte
prefix. -/
def messageHeaderSize : Nat := 4

/-- Byte image of a header (little-endian length), used only when a
frame is reinterpreted as raw bytes. -/
def MessageHeader.bytes (h : MessageHeader) : List Nat :=
  [h.coreId % 256, h.epId % 256, h.length % 256, h.length / 256 % 256]

/-- Contents of a packet: either raw bytes or a decoded network frame
(header plus payload).  Constructing or destructing `frame` models the
`memcpy` / `getPtr<MessageHeader>` reinterpretations of the source. -/
inductive PktData where
  | raw (bytes : List Nat)
  | frame (header : MessageHeader) (payload : List Nat)
deriving DecidableEq, Repr

/-- Raw byte view of packet contents. -/
def PktData.bytes : PktData → List Nat
  | .raw bs => bs
  | .frame h p => h.bytes ++ p

/-- Memory command of a request packet. -/
inductive MemCmd where
  | ReadReq
  | WriteReq
deriving DecidableEq, Repr

/-- A memory/NoC request packet (the fields of gem5's `Packet` that
`dtu.cc` reads or writes). -/
structure Packet where
  addr : Nat
  size : Nat
  cmd : MemCmd
  data : PktData
  headerDelay : Nat
  payloadDelay : Nat
deriving DecidableEq, Repr

/-- Tag attached to a scratchpad request (`Dtu::SpmSenderState`). -/
structure SpmSenderState where
  epId : Nat
  isLocalRequest : Bool
  isForwardedRequest : Bool
deriving DecidableEq, Repr

/-- Tag attached to a NoC request (`Dtu::NocSenderState`). -/
structure NocSenderState where
  isMessage : Bool
  isMemoryRequest : Bool
deriving DecidableEq, Repr

/-- Exactly one of the two scratchpad-tag flags is set (the invariant
asserted by `Dtu::completeSpmRequest`). -/
def SpmSenderState.exclusiveTag (s : SpmSenderState) : Bool :=
  (s.isLocalRequest || s.isForwardedRequest) && !(s.isLocalRequest && s.isForwardedRequest)

/-- Exactly one of the two NoC-tag flags is set (the invariant asserted
by `Dtu::handleNocRequest`). -/
def NocSenderState.exclusiveTag (s : NocSenderState) : Bool :=
  (s.isMessage || s.isMemoryRequest) && !(s.isMessage && s.isMemoryRequest)

/-- The member events of `Dtu` that the source passes to `schedule`. -/
inductive EventKind where
  | executeCommandEvent
  | finishMessageTransmissionEvent
  | incrementWritePtrEvent (epId : Nat)
deriving DecidableEq, Repr

/-- Observable side effects accumulated by one synchronous run:
requests issued atomically, requests scheduled for later delivery
(timed mode), events passed to `schedule`, and responses sent. -/
structure Effects where
  spmRequests : List (Packet × SpmSenderState)
  schedSpmRequests : List (Packet × SpmSenderState)
  nocRequests : List (Packet × NocSenderState)
  schedNocRequests : List (Packet × NocSenderState)
  scheduledEvents : List EventKind
  nocResponses : List Packet
  cpuResponses : List Packet
deriving DecidableEq, Repr

def Effects.empty : Effects := ⟨[], [], [], [], [], [], []⟩

def Effects.app (a b : Effects) : Effects :=
  ⟨a.spmRequests ++ b.spmRequests,
   a.schedSpmRequests ++ b.schedSpmRequests,
   a.nocRequests ++ b.nocRequests,
   a.schedNocRequests ++ b.schedNocRequests,
   a.scheduledEvents ++ b.scheduledEvents,
   a.nocResponses ++ b.nocResponses,
   a.cpuResponses ++ b.cpuResponses⟩

/-- Error taxonomy of the specification; `assertionFailed` stands for a
failing internal `assert` that the specification does not name. -/
inductive DtuError where
  | invalidOpcode
  | endpointOutOfRange
  | invalidEndpointMode
  | emptyMessage
  | messageTooLarge
  | bufferOverflow
  | bufferUnderflow
  | unsupported
  | assertionFailed
deriving DecidableEq, Repr

/-- Effects of a run; an aborted (panicking) run has none because the
simulation halts. -/
def effectsOf (r : Except DtuError (RegFile × Effects)) : Effects :=
  match r with
  | .ok x => x.2
  | .error _ => Effects.empty

/-- Bool-valued success test for a pipeline run. -/
def isOkE (r : Except DtuError (RegFile × Effects)) : Bool :=
  match r with
  | .ok _ => true
  | .error _ => false

/-- Resulting register file of a run, with a fallback for aborted runs. -/
def rfOf (fallback : RegFile) (r : Except DtuError (RegFile × Effects)) : RegFile :=
  match r with
  | .ok x => x.1
  | .error _ => fallback

/-- Bool-valued success test for a register-file-only operation. -/
def isOkR (r : Except DtuError RegFile) : Bool :=
  match r with
  | .ok _ => true
  | .error _ => false

/-- Message count of an endpoint after a register-file-only operation. -/
def countAfter (epId : Nat) (r : Except DtuError RegFile) : Option Nat :=
  match r with
  | .ok rf => some (rf.readEpReg epId .BUFFER_MESSAGE_COUNT)
  | .error _ => none

/-- Read pointer of an endpoint after a register-file-only operation. -/
def readPtrAfter (epId : Nat) (r : Except DtuError RegFile) : Option Nat :=
  match r with
  | .ok rf => some (rf.readEpReg epId .BUFFER_READ_PTR)
  | .error _ => none

/-- Write pointer of an endpoint after a register-file-only operation. -/
def writePtrAfter (epId : Nat) (r : Except DtuError RegFile) : Option Nat :=
  match r with
  | .ok rf => some (rf.readEpReg epId .BUFFER_WRITE_PTR)
  | .error _ => none

/-- `Dtu::generateRequest`: a fresh packet with an uninitialised data
buffer of `size` bytes. -/
def generateRequest (paddr size : Nat) (cmd : MemCmd) : Packet :=
  { addr := paddr, size := size, cmd := cmd, data := .raw [],
    headerDelay := 0, payloadDelay := 0 }

/-- Modelled from the spec: the scratchpad side of the timed-transport
collaborator (`BaseDtu::sendAtomicSpmRequest`, outside these sources).
Serving a read fills the packet's buffer from scratchpad memory; a write
updates external memory, which this model does not track. -/
def sendAtomicSpmRequest (spm : Nat → Nat) (pkt : Packet) : Packet :=
  match pkt.cmd with
  | .ReadReq =>
      { pkt with data := .raw ((List.range pkt.size).map fun i => spm (pkt.addr + i) % 256) }
  | .WriteReq => pkt

/-- Modelled from the spec: `BaseDtu::getNocAddr` (outside these
sources) packs a destination as (coreId, epId) with the endpoint id in
the low `nocEpAddrBits` address bits, matching the extraction in
`Dtu::recvNocMessage`. -/
def getNocAddr (cfg : DtuConfig) (coreId epId : Nat) : Nat :=
  (coreId * 2 ^ cfg.nocEpAddrBits + epId) % regMod

/-- `Dtu::getCommand`: decode the control register.  The layout comment
in the source documents, low to high, opcode (width `numCmdOpcodeBits`),
epid (width `numCmdEpidBits`), offset; note that the epid field is
shifted right by `numCmdEpidBits`, exactly as in the source. -/
def getCommand (cfg : DtuConfig) (rf : RegFile) : Command :=
  let opcodeMask := 2 ^ cfg.numCmdOpcodeBits - 1
  let epidMask := (2 ^ cfg.numCmdEpidBits - 1) * 2 ^ cfg.numCmdOpcodeBits
  let offsetMask :=
    (2 ^ cfg.numCmdOffsetBits - 1) * 2 ^ (cfg.numCmdOpcodeBits + cfg.numCmdEpidBits)
  let reg := rf.readDtuReg .COMMAND
  { opcode := reg &&& opcodeMask,
    epId := (reg &&& epidMask) >>> cfg.numCmdEpidBits,
    offset := (reg &&& offsetMask) >>> (cfg.numCmdEpidBits + cfg.numCmdOpcodeBits) }

/-- Modelled from the spec: packing a command triple into the control
register with the documented bit layout, low to high: opcode (width
`numCmdOpcodeBits`), epId (width `numCmdEpidBits`), offset in the
remaining bits. -/
def encodeCommand (cfg : DtuConfig) (c : Command) : Nat :=
  c.opcode + c.epId * 2 ^ cfg.numCmdOpcodeBits +
    c.offset * 2 ^ (cfg.numCmdOpcodeBits + cfg.numCmdEpidBits)

/-- `Dtu::incrementReadPtr` (ring-buffer consumer side).  The failing
`assert(messageCount != 0)` is the specification's BufferUnderflow. -/
def incrementReadPtr (cfg : DtuConfig) (rf : RegFile) (epId : Nat) :
    Except DtuError RegFile :=
  let readPtr := rf.readEpReg epId .BUFFER_READ_PTR
  let bufferAddr := rf.readEpReg epId .BUFFER_ADDR
  let bufferSize := rf.readEpReg epId .BUFFER_SIZE
  let messageCount := rf.readEpReg epId .BUFFER_MESSAGE_COUNT
  if messageCount = 0 then .error .bufferUnderflow
  else
    let readPtr2 := (readPtr + cfg.maxMessageSize) % regMod
    let readPtr3 :=
      if (bufferAddr + bufferSize * cfg.maxMessageSize) % regMod ≤ readPtr2 then bufferAddr
      else readPtr2
    .ok ((rf.setEpReg epId .BUFFER_READ_PTR readPtr3).setEpReg epId
          .BUFFER_MESSAGE_COUNT (messageCount - 1))

/-- `Dtu::incrementWritePtr` (ring-buffer producer side).  The failing
`assert(messageCount < bufferSize)` is the specification's
BufferOverflow. -/
def incrementWritePtr (cfg : DtuConfig) (rf : RegFile) (epId : Nat) :
    Except DtuError RegFile :=
  let writePtr := rf.readEpReg epId .BUFFER_WRITE_PTR
  let bufferAddr := rf.readEpReg epId .BUFFER_ADDR
  let bufferSize := rf.readEpReg epId .BUFFER_SIZE
  let messageCount := rf.readEpReg epId .BUFFER_MESSAGE_COUNT
  if messageCount < bufferSize then
    let writePtr2 := (writePtr + cfg.maxMessageSize) % regMod
    let writePtr3 :=
      if (bufferAddr + bufferSize * cfg.maxMessageSize) % regMod ≤ writePtr2 then bufferAddr
      else writePtr2
    .ok ((rf.setEpReg epId .BUFFER_WRITE_PTR writePtr3).setEpReg epId
          .BUFFER_MESSAGE_COUNT (messageCount + 1))
  else .error .bufferOverflow

/-- `Dtu::finishMessageTransmission`: reset the command register and
clear the busy flag. -/
def finishMessageTransmission (rf : RegFile) : RegFile :=
  (rf.setDtuReg .COMMAND 0).setDtuReg .STATUS 0

/-- `Dtu::completeNocRequest`: the remote acknowledgment arrived; the
source always schedules `finishMessageTransmissionEvent`, in both timing
modes. -/
def completeNocRequest (rf : RegFile) (_pkt : Packet) : RegFile × Effects :=
  (rf, { Effects.empty with scheduledEvents := [.finishMessageTransmissionEvent] })

/-- `Dtu::completeLocalSpmRequest`: the scratchpad read of an outgoing
message completed; build the network frame and send it.  The endpoint id
is recovered by re-decoding the (unchanged) command register; the
`unsigned` locals narrow the 64-bit register values to 32 bits. -/
def completeLocalSpmRequest (cfg : DtuConfig) (rf : RegFile) (pkt : Packet) :
    Except DtuError (RegFile × Effects) :=
  if pkt.cmd = .ReadReq then
    let epid := (getCommand cfg rf).epId
    let targetCoreId := rf.readEpReg epid .TARGET_COREID % u32Mod
    let targetEpId := rf.readEpReg epid .TARGET_EPID % u32Mod
    let messageSize := rf.readEpReg epid .MESSAGE_SIZE % u32Mod
    if pkt.size = messageSize then
      let header : MessageHeader :=
        { coreId := cfg.coreId % 256, epId := epid % 256, length := messageSize % 65536 }
      let nocPkt0 := generateRequest (getNocAddr cfg targetCoreId targetEpId)
          (messageSize + messageHeaderSize) .WriteReq
      let nocPkt := { nocPkt0 with
        data := .frame header (pkt.data.bytes.take messageSize),
        payloadDelay := pkt.payloadDelay }
      let ss : NocSenderState := { isMessage := true, isMemoryRequest := false }
      if cfg.atomicMode then
        let r := completeNocRequest rf nocPkt
        .ok (r.1, Effects.app { Effects.empty with nocRequests := [(nocPkt, ss)] } r.2)
      else
        .ok (rf, { Effects.empty with schedNocRequests := [(nocPkt, ss)] })
    else .error .assertionFailed
  else .error .assertionFailed

/-- `Dtu::completeForwardedSpmRequest`: the scratchpad write of an
inbound message completed; advance the ring-buffer producer side and, in
timed mode, send the NoC response with zeroed delays. -/
def completeForwardedSpmRequest (cfg : DtuConfig) (rf : RegFile) (pkt : Packet)
    (epId : Nat) : Except DtuError (RegFile × Effects) :=
  if pkt.cmd = .WriteReq then
    if cfg.atomicMode then
      match incrementWritePtr cfg rf epId with
      | .error e => .error e
      | .ok rf2 => .ok (rf2, Effects.empty)
    else
      let pkt2 := { pkt with headerDelay := 0, payloadDelay := 0 }
      .ok (rf, { Effects.empty with
          scheduledEvents := [.incrementWritePtrEvent epId],
          nocResponses := [pkt2] })
  else .error .assertionFailed

/-- `Dtu::completeSpmRequest`: single completion entry point for
scratchpad requests; asserts the popped tag's mutual exclusivity and
dispatches on the local/forwarded flag. -/
def completeSpmRequest (cfg : DtuConfig) (rf : RegFile) (pkt : Packet)
    (ss : SpmSenderState) : Except DtuError (RegFile × Effects) :=
  if ss.exclusiveTag then
    if ss.isLocalRequest then completeLocalSpmRequest cfg rf pkt
    else completeForwardedSpmRequest cfg rf pkt ss.epId
  else .error .assertionFailed

/-- `Dtu::startMessageTransmission`: validate the message, set the busy
flag, and issue the tagged scratchpad read; in atomic mode the whole
remaining pipeline runs synchronously. -/
def startMessageTransmission (cfg : DtuConfig) (spm : Nat → Nat) (rf : RegFile)
    (epId : Nat) : Except DtuError (RegFile × Effects) :=
  let messageAddr := rf.readEpReg epId .MESSAGE_ADDR
  let messageSize := rf.readEpReg epId .MESSAGE_SIZE
  if messageSize = 0 then .error .emptyMessage
  else if (messageSize + messageHeaderSize) % regMod < cfg.maxMessageSize then
    let rf1 := rf.setDtuReg .STATUS 1
    let pkt := generateRequest messageAddr messageSize .ReadReq
    let ss : SpmSenderState :=
      { epId := epId, isLocalRequest := true, isForwardedRequest := false }
    if cfg.atomicMode then
      let pkt2 := sendAtomicSpmRequest spm pkt
      match completeSpmRequest cfg rf1 pkt2 ss with
      | .error e => .error e
      | .ok (rf2, eff) =>
          .ok (rf2, Effects.app { Effects.empty with spmRequests := [(pkt, ss)] } eff)
    else
      .ok (rf1, { Effects.empty with schedSpmRequests := [(pkt, ss)] })
  else .error .messageTooLarge

/-- `Dtu::startOperation`: dispatch on the endpoint mode; starting an
operation on a receive endpoint (or an endpoint in an invalid mode) is
the specification's InvalidEndpointMode. -/
def startOperation (cfg : DtuConfig) (spm : Nat → Nat) (rf : RegFile) (cmd : Command) :
    Except DtuError (RegFile × Effects) :=
  let mode := rf.readEpReg cmd.epId .MODE
  if mode = modeRECEIVE_MESSAGE then .error .invalidEndpointMode
  else if mode = modeTRANSMIT_MESSAGE then startMessageTransmission cfg spm rf cmd.epId
  else .error .invalidEndpointMode

/-- `Dtu::executeCommand`: decode the control register, validate the
endpoint id, and dispatch on the opcode. -/
def executeCommand (cfg : DtuConfig) (spm : Nat → Nat) (rf : RegFile) :
    Except DtuError (RegFile × Effects) :=
  let cmd := getCommand cfg rf
  if cmd.epId < cfg.numEndpoints then
    if cmd.opcode = opcodeIDLE then .ok (rf, Effects.empty)
    else if cmd.opcode = opcodeSTART_OPERATION then startOperation cfg spm rf cmd
    else if cmd.opcode = opcodeINC_READ_PTR then
      match incrementReadPtr cfg rf cmd.epId with
      | .error e => .error e
      | .ok rf2 => .ok (rf2, Effects.empty)
    else .error .invalidOpcode
  else .error .endpointOutOfRange

/-- `Dtu::recvNocMessage`: an inbound message frame; the endpoint id
comes from the low address bits, a full ring buffer is the
specification's BufferOverflow, otherwise the payload is forwarded to
the scratchpad at the current write pointer under a forwarded tag. -/
def recvNocMessage (cfg : DtuConfig) (spm : Nat → Nat) (rf : RegFile) (pkt : Packet) :
    Except DtuError (RegFile × Effects) :=
  let epId := (pkt.addr &&& (2 ^ cfg.nocEpAddrBits - 1)) % u32Mod
  match pkt.data with
  | .raw _ => .error .assertionFailed
  | .frame _ _ =>
    let messageCount := rf.readEpReg epId .BUFFER_MESSAGE_COUNT % u32Mod
    let bufferSize := rf.readEpReg epId .BUFFER_SIZE % u32Mod
    if messageCount = bufferSize then .error .bufferOverflow
    else
      let spmAddr := rf.readEpReg epId .BUFFER_WRITE_PTR
      let pkt2 := { pkt with addr := spmAddr }
      let ss : SpmSenderState :=
        { epId := epId, isLocalRequest := false, isForwardedRequest := true }
      if cfg.atomicMode then
        let pkt3 := sendAtomicSpmRequest spm pkt2
        match completeSpmRequest cfg rf pkt3 ss with
        | .error e => .error e
        | .ok (rf2, eff) =>
            .ok (rf2, Effects.app { Effects.empty with spmRequests := [(pkt2, ss)] } eff)
      else
        let pkt3 := { pkt2 with headerDelay := 0 }
        .ok (rf, { Effects.empty with schedSpmRequests := [(pkt3, ss)] })

/-- `Dtu::recvNocMemoryRequest`: unimplemented in the reference
(`panic`), the specification's Unsupported. -/
def recvNocMemoryRequest (_rf : RegFile) (_pkt : Packet) :
    Except DtuError (RegFile × Effects) := .error .unsupported

/-- `Dtu::handleNocRequest`: completion entry point for NoC-originated
requests; asserts that the packet is a write and that the popped tag is
mutually exclusive, then dispatches on the message flag. -/
def handleNocRequest (cfg : DtuConfig) (spm : Nat → Nat) (rf : RegFile) (pkt : Packet)
    (ns : NocSenderState) : Except DtuError (RegFile × Effects) :=
  if pkt.cmd = .WriteReq then
    if ns.exclusiveTag then
      if ns.isMessage then recvNocMessage cfg spm rf pkt
      else recvNocMemoryRequest rf pkt
    else .error .assertionFailed
  else .error .assertionFailed

/-- `Dtu::handleCpuRequest`: strip the CPU base address, apply the
access to the register file (an external collaborator, passed here as
`rfHandle`, which reports whether the control register was written),
restore the original address, and either answer/schedule in timed mode
or run the written command synchronously in atomic mode.  The returned
packet is the response as the local core observes it. -/
def handleCpuRequest (cfg : DtuConfig) (spm : Nat → Nat)
    (rfHandle : RegFile → Packet → Bool × RegFile) (rf : RegFile) (pkt : Packet) :
    Except DtuError (Packet × RegFile × Effects) :=
  let origAddr := pkt.addr
  let pkt1 := { pkt with addr := (origAddr + regMod - cfg.cpuBaseAddr % regMod) % regMod }
  let hr := rfHandle rf pkt1
  let commandWritten := hr.1
  let rf1 := hr.2
  let pkt2 := { pkt1 with addr := origAddr }
  if cfg.atomicMode then
    if commandWritten then
      match executeCommand cfg spm rf1 with
      | .error e => .error e
      | .ok (rf2, eff) => .ok (pkt2, rf2, eff)
    else .ok (pkt2, rf1, Effects.empty)
  else
    let pkt3 := { pkt2 with headerDelay := 0, payloadDelay := 0 }
    .ok (pkt3, rf1, { Effects.empty with
        cpuResponses := [pkt3],
        scheduledEvents := if commandWritten then [.executeCommandEvent] else [] })

/-- Modelled from the spec: the shared ring-pointer advance arithmetic
of the ring-buffer manager, slot size `maxMessageSize` (section 4.6 of
the specification); both source paths are proved to implement it. -/
def advancePtr (maxMessageSize bufferAddr bufferSize ptr : Nat) : Nat :=
  let p := (ptr + maxMessageSize) % regMod
  if (bufferAddr + bufferSize * maxMessageSize) % regMod ≤ p then bufferAddr else p

/-- One abstract ring operation: produce (store an inbound message) or
consume (the IncrementReadPtr command). -/
inductive RingOp where
  | produce
  | consume
deriving DecidableEq, Repr

/-- Apply one ring operation to the register file. -/
def ringStep (cfg : DtuConfig) (epId : Nat) (rf : RegFile) : RingOp → Except DtuError RegFile
  | .produce => incrementWritePtr cfg rf epId
  | .consume => incrementReadPtr cfg rf epId

/-- Run a sequence of ring operations; an operation whose precondition
fails aborts the run. -/
def runRing (cfg : DtuConfig) (epId : Nat) : RegFile → List RingOp → Except DtuError RegFile
  | rf, [] => .ok rf
  | rf, op :: ops =>
    match ringStep cfg epId rf op with
    | .error e => .error e
    | .ok rf2 => runRing cfg epId rf2 ops

/-! Register-file access lemmas. -/

@[simp]
theorem readDtuReg_setDtuReg (rf : RegFile) (r r2 : DtuReg) (v : Nat) :
    (rf.setDtuReg r v).readDtuReg r2 = if r2 = r then v % regMod else rf.readDtuReg r2 := rfl

@[simp]
theorem readEpReg_setDtuReg (rf : RegFile) (r : DtuReg) (v ep : Nat) (r2 : EpReg) :
    (rf.setDtuReg r v).readEpReg ep r2 = rf.readEpReg ep r2 := rfl

@[simp]
theorem readDtuReg_setEpReg (rf : RegFile) (ep : Nat) (r : EpReg) (v : Nat) (r2 : DtuReg) :
    (rf.setEpReg ep r v).readDtuReg r2 = rf.readDtuReg r2 := rfl

theorem readEpReg_setEpReg (rf : RegFile) (ep : Nat) (r : EpReg) (v ep2 : Nat) (r2 : EpReg) :
    (rf.setEpReg ep r v).readEpReg ep2 r2 =
      if ep2 = ep ∧ r2 = r then v % regMod else rf.readEpReg ep2 r2 := rfl

@[simp]
theorem readEpReg_setEpReg_same (rf : RegFile) (ep : Nat) (r : EpReg) (v : Nat) :
    (rf.setEpReg ep r v).readEpReg ep r = v % regMod := by
  rw [readEpReg_setEpReg, if_pos ⟨rfl, rfl⟩]

@[simp]
theorem readEpReg_setEpReg_ne (rf : RegFile) (ep : Nat) (r : EpReg) (v ep2 : Nat)
    (r2 : EpReg) (h : (r2 = r) = False) :
    (rf.setEpReg ep r v).readEpReg ep2 r2 = rf.readEpReg ep2 r2 := by
  rw [readEpReg_setEpReg, if_neg]
  intro hc
  exact h ▸ hc.2

/-- Decoding only looks at the command register, so setting the status
flag does not change the decoded command. -/
@[simp]
theorem getCommand_setDtuReg_STATUS (cfg : DtuConfig) (rf : RegFile) (v : Nat) :
    getCommand cfg (rf.setDtuReg .STATUS v) = getCommand cfg rf := rfl

/-! Effect-log lemmas. -/

@[simp]
theorem app_spmRequests (a b : Effects) :
    (a.app b).spmRequests = a.spmRequests ++ b.spmRequests := rfl

@[simp]
theorem app_schedSpmRequests (a b : Effects) :
    (a.app b).schedSpmRequests = a.schedSpmRequests ++ b.schedSpmRequests := rfl

@[simp]
theorem app_nocRequests (a b : Effects) :
    (a.app b).nocRequests = a.nocRequests ++ b.nocRequests := rfl

@[simp]
theorem app_schedNocRequests (a b : Effects) :
    (a.app b).schedNocRequests = a.schedNocRequests ++ b.schedNocRequests := rfl

@[simp]
theorem app_scheduledEvents (a b : Effects) :
    (a.app b).scheduledEvents = a.scheduledEvents ++ b.scheduledEvents := rfl

@[simp]
theorem effectsOf_ok (x : RegFile × Effects) : effectsOf (.ok x) = x.2 := rfl

@[simp]
theorem effectsOf_error (e : DtuError) : effectsOf (.error e) = Effects.empty := rfl

@[simp]
theorem empty_spmRequests : Effects.empty.spmRequests = [] := rfl

@[simp]
theorem empty_schedSpmRequests : Effects.empty.schedSpmRequests = [] := rfl

@[simp]
theorem empty_nocRequests : Effects.empty.nocRequests = [] := rfl

@[simp]
theorem empty_schedNocRequests : Effects.empty.schedNocRequests = [] := rfl

@[simp]
theorem empty_scheduledEvents : Effects.empty.scheduledEvents = [] := rfl

/-! Claim C1: command encode/decode round trip. -/

/-- Configuration for the round-trip check: opcode field 2 bits wide,
epid field 8 bits wide, offset field 16 bits wide (a legal configuration:
2 + 8 + 16 is at most the 64-bit register width). -/
def c1cfg : DtuConfig :=
  { numEndpoints := 8, maxMessageSize := 1024, numCmdOpcodeBits := 2,
    numCmdEpidBits := 8, numCmdOffsetBits := 16, coreId := 0, cpuBaseAddr := 0,
    nocEpAddrBits := 4, atomicMode := true }

/-- Register file whose control register holds the encoding of
{opcode = StartOperation, epId = 3, offset = 0} under the documented
layout. -/
def c1rf : RegFile :=
  { dtuRegs := fun r => if r = .COMMAND
      then encodeCommand c1cfg { opcode := opcodeSTART_OPERATION, epId := 3, offset := 0 }
      else 0,
    epRegs := fun _ _ => 0 }

/-- C1: the command round-trip fails on the code.  Encoding the valid
triple {opcode = StartOperation, epId = 3, offset = 0} (with epId 3 below
numEndpoints = 8) into the control register under the documented bit
layout and decoding it with getCommand does not reproduce the triple:
the decoder shifts the masked epid field right by the field width
`numCmdEpidBits` instead of its bit position `numCmdOpcodeBits`, so the
decoded epId is 0, not 3. -/
theorem c1_command_roundTrip_fails :
    c1rf.readDtuReg .COMMAND =
      encodeCommand c1cfg { opcode := opcodeSTART_OPERATION, epId := 3, offset := 0 } ∧
    getCommand c1cfg c1rf ≠ { opcode := opcodeSTART_OPERATION, epId := 3, offset := 0 } ∧
    getCommand c1cfg c1rf = { opcode := opcodeSTART_OPERATION, epId := 0, offset := 0 } := by
  refine ⟨rfl, ?_, ?_⟩ <;> decide


/-! Ring-buffer step characterisations. -/

/-- Resulting register file of a register-file-only operation, with a
fallback for aborted runs. -/
def rfOfR (fallback : RegFile) (r : Except DtuError RegFile) : RegFile :=
  match r with
  | .ok rf => rf
  | .error _ => fallback

/-- Register-level effect of a successful producer step. -/
theorem incrementWritePtr_ok_regs (cfg : DtuConfig) (rf : RegFile) (epId : Nat)
    (rf2 : RegFile) (h : incrementWritePtr cfg rf epId = .ok rf2) :
    rf2.readEpReg epId .BUFFER_MESSAGE_COUNT =
      (rf.readEpReg epId .BUFFER_MESSAGE_COUNT + 1) % regMod ∧
    rf2.readEpReg epId .BUFFER_SIZE = rf.readEpReg epId .BUFFER_SIZE ∧
    rf.readEpReg epId .BUFFER_MESSAGE_COUNT < rf.readEpReg epId .BUFFER_SIZE := by
  simp only [incrementWritePtr] at h
  split at h
  · injection h with h2
    subst h2
    refine ⟨by simp, by simp, by assumption⟩
  · exact Except.noConfusion h

/-- Register-level effect of a successful consumer step. -/
theorem incrementReadPtr_ok_regs (cfg : DtuConfig) (rf : RegFile) (epId : Nat)
    (rf2 : RegFile) (h : incrementReadPtr cfg rf epId = .ok rf2) :
    rf2.readEpReg epId .BUFFER_MESSAGE_COUNT =
      (rf.readEpReg epId .BUFFER_MESSAGE_COUNT - 1) % regMod ∧
    rf2.readEpReg epId .BUFFER_SIZE = rf.readEpReg epId .BUFFER_SIZE ∧
    rf.readEpReg epId .BUFFER_MESSAGE_COUNT ≠ 0 := by
  simp only [incrementReadPtr] at h
  split at h
  · exact Except.noConfusion h
  · injection h with h2
    subst h2
    refine ⟨by simp, by simp, by assumption⟩

/-- The message-count invariant is preserved along any successful run of
ring operations. -/
theorem runRing_count_inv (cfg : DtuConfig) (epId : Nat) :
    ∀ (ops : List RingOp) (rf rfF : RegFile),
    rf.readEpReg epId .BUFFER_SIZE < regMod →
    rf.readEpReg epId .BUFFER_MESSAGE_COUNT ≤ rf.readEpReg epId .BUFFER_SIZE →
    runRing cfg epId rf ops = .ok rfF →
    rfF.readEpReg epId .BUFFER_MESSAGE_COUNT ≤ rfF.readEpReg epId .BUFFER_SIZE ∧
    rfF.readEpReg epId .BUFFER_SIZE = rf.readEpReg epId .BUFFER_SIZE := by
  intro ops
  induction ops with
  | nil =>
    intro rf rfF hsz hcnt h
    injection h with h2
    subst h2
    exact ⟨hcnt, rfl⟩
  | cons op ops ih =>
    intro rf rfF hsz hcnt h
    unfold runRing at h
    cases hstep : ringStep cfg epId rf op with
    | error e => rw [hstep] at h; exact Except.noConfusion h
    | ok rf2 =>
      rw [hstep] at h
      cases op with
      | produce =>
        obtain ⟨hc2, hs2, hlt⟩ := incrementWritePtr_ok_regs cfg rf epId rf2 hstep
        have hm : (rf.readEpReg epId .BUFFER_MESSAGE_COUNT + 1) % regMod =
            rf.readEpReg epId .BUFFER_MESSAGE_COUNT + 1 := Nat.mod_eq_of_lt (by omega)
        have hcnt2 : rf2.readEpReg epId .BUFFER_MESSAGE_COUNT ≤
            rf2.readEpReg epId .BUFFER_SIZE := by
          rw [hc2, hs2, hm]; omega
        have := ih rf2 rfF (by rw [hs2]; exact hsz) hcnt2 h
        rw [hs2] at this
        exact this
      | consume =>
        obtain ⟨hc2, hs2, _⟩ := incrementReadPtr_ok_regs cfg rf epId rf2 hstep
        have hm : (rf.readEpReg epId .BUFFER_MESSAGE_COUNT - 1) % regMod =
            rf.readEpReg epId .BUFFER_MESSAGE_COUNT - 1 := Nat.mod_eq_of_lt (by omega)
        have hcnt2 : rf2.readEpReg epId .BUFFER_MESSAGE_COUNT ≤
            rf2.readEpReg epId .BUFFER_SIZE := by
          rw [hc2, hs2, hm]; omega
        have := ih rf2 rfF (by rw [hs2]; exact hsz) hcnt2 h
        rw [hs2] at this
        exact this

/-- C4: ring count invariant.  From any state whose message count is
within capacity: a producer step that does not overflow yields count + 1,
a consumer step that does not underflow yields count - 1, and along any
successful sequence of produce/consume operations the count never leaves
the interval from 0 to the slot capacity (and the capacity register is
untouched). -/
theorem c4_ring_count_invariant :
    (∀ (cfg : DtuConfig) (rf : RegFile) (epId : Nat),
       rf.readEpReg epId .BUFFER_SIZE < regMod →
       isOkR (incrementWritePtr cfg rf epId) = true →
       countAfter epId (incrementWritePtr cfg rf epId) =
         some (rf.readEpReg epId .BUFFER_MESSAGE_COUNT + 1)) ∧
    (∀ (cfg : DtuConfig) (rf : RegFile) (epId : Nat),
       rf.readEpReg epId .BUFFER_MESSAGE_COUNT < regMod →
       isOkR (incrementReadPtr cfg rf epId) = true →
       countAfter epId (incrementReadPtr cfg rf epId) =
         some (rf.readEpReg epId .BUFFER_MESSAGE_COUNT - 1)) ∧
    (∀ (cfg : DtuConfig) (epId : Nat) (ops : List RingOp) (rf rfF : RegFile),
       rf.readEpReg epId .BUFFER_SIZE < regMod →
       rf.readEpReg epId .BUFFER_MESSAGE_COUNT ≤ rf.readEpReg epId .BUFFER_SIZE →
       runRing cfg epId rf ops = .ok rfF →
       rfF.readEpReg epId .BUFFER_MESSAGE_COUNT ≤ rfF.readEpReg epId .BUFFER_SIZE ∧
       rfF.readEpReg epId .BUFFER_SIZE = rf.readEpReg epId .BUFFER_SIZE) := by
  refine ⟨?_, ?_, fun cfg epId ops rf rfF => runRing_count_inv cfg epId ops rf rfF⟩
  · intro cfg rf epId hsz hok
    cases h : incrementWritePtr cfg rf epId with
    | error e => rw [h] at hok; exact Bool.noConfusion hok
    | ok rf2 =>
      obtain ⟨hc2, _, hlt⟩ := incrementWritePtr_ok_regs cfg rf epId rf2 h
      have hm : (rf.readEpReg epId .BUFFER_MESSAGE_COUNT + 1) % regMod =
          rf.readEpReg epId .BUFFER_MESSAGE_COUNT + 1 := Nat.mod_eq_of_lt (by omega)
      simp only [countAfter, hc2, hm]
  · intro cfg rf epId hcnt hok
    cases h : incrementReadPtr cfg rf epId with
    | error e => rw [h] at hok; exact Bool.noConfusion hok
    | ok rf2 =>
      obtain ⟨hc2, _, _⟩ := incrementReadPtr_ok_regs cfg rf epId rf2 h
      have hm : (rf.readEpReg epId .BUFFER_MESSAGE_COUNT - 1) % regMod =
          rf.readEpReg epId .BUFFER_MESSAGE_COUNT - 1 := Nat.mod_eq_of_lt (by omega)
      simp only [countAfter, hc2, hm]

/-- Concrete two-slot ring state: endpoint 0 holds one message. -/
def c4rf : RegFile :=
  { dtuRegs := fun _ => 0,
    epRegs := fun ep r =>
      if ep = 0 then
        match r with
        | .BUFFER_ADDR => 256
        | .BUFFER_SIZE => 2
        | .BUFFER_READ_PTR => 256
        | .BUFFER_WRITE_PTR => 256
        | .BUFFER_MESSAGE_COUNT => 1
        | _ => 0
      else 0 }

/-- Witness for C4 at a concrete two-slot ring state with one occupied
slot, including a three-operation produce/consume/consume run. -/
theorem c4_ring_count_invariant_witness :
    countAfter 0 (incrementWritePtr c1cfg c4rf 0) = some 2 ∧
    countAfter 0 (incrementReadPtr c1cfg c4rf 0) = some 0 ∧
    ((rfOfR c4rf (runRing c1cfg 0 c4rf [.produce, .consume, .consume])).readEpReg 0
        .BUFFER_MESSAGE_COUNT ≤
      (rfOfR c4rf (runRing c1cfg 0 c4rf [.produce, .consume, .consume])).readEpReg 0
        .BUFFER_SIZE ∧
     (rfOfR c4rf (runRing c1cfg 0 c4rf [.produce, .consume, .consume])).readEpReg 0
        .BUFFER_SIZE = c4rf.readEpReg 0 .BUFFER_SIZE) := by
  refine ⟨?_, ?_, ?_⟩
  · exact c4_ring_count_invariant.1 c1cfg c4rf 0 (by decide) (by decide)
  · exact c4_ring_count_invariant.2.1 c1cfg c4rf 0 (by decide) (by decide)
  · exact c4_ring_count_invariant.2.2 c1cfg 0 [.produce, .consume, .consume] c4rf
      (rfOfR c4rf (runRing c1cfg 0 c4rf [.produce, .consume, .consume]))
      (by decide) (by decide) (by rfl)

/-! Claim C5: pointer wraparound and shared advance arithmetic. -/

/-- Iterating the advance arithmetic stays inside the buffer for fewer
than a full round of steps. -/
theorem advancePtr_iterate_lt (mms a sz : Nat) (hov : a + sz * mms < regMod) :
    ∀ k, k < sz → (advancePtr mms a sz)^[k] a = a + k * mms := by
  intro k
  induction k with
  | zero => intro _; simp
  | succ n ih =>
    intro hk
    have hn : n < sz := Nat.lt_of_succ_lt hk
    rw [Function.iterate_succ_apply', ih hn]
    simp only [advancePtr]
    have hmul : (n + 1) * mms ≤ sz * mms := Nat.mul_le_mul_right mms (by omega)
    have hsum : a + n * mms + mms = a + (n + 1) * mms := by ring
    have hlt : a + n * mms + mms < regMod := by rw [hsum]; omega
    rw [Nat.mod_eq_of_lt hlt, Nat.mod_eq_of_lt hov]
    by_cases hm : mms = 0
    · subst hm; simp
    · have hstrict : a + n * mms + mms < a + sz * mms := by
        rw [hsum]
        have : (n + 1) * mms < sz * mms :=
          Nat.mul_lt_mul_of_lt_of_le hk (Nat.le_refl mms) (by omega)
        omega
      rw [if_neg (by omega)]
      rw [hsum]

/-- C5: pointer wraparound.  The consumer's and the producer's pointer
updates both implement the single advance arithmetic `advancePtr` (the
same wraparound formula on both paths), and iterating that advance
exactly `bufferSizeSlots` times from `bufferAddr` returns to
`bufferAddr`. -/
theorem c5_pointer_wraparound :
    (∀ (cfg : DtuConfig) (rf : RegFile) (epId : Nat),
       rf.readEpReg epId .BUFFER_ADDR < regMod →
       isOkR (incrementReadPtr cfg rf epId) = true →
       readPtrAfter epId (incrementReadPtr cfg rf epId) =
         some (advancePtr cfg.maxMessageSize (rf.readEpReg epId .BUFFER_ADDR)
               (rf.readEpReg epId .BUFFER_SIZE) (rf.readEpReg epId .BUFFER_READ_PTR))) ∧
    (∀ (cfg : DtuConfig) (rf : RegFile) (epId : Nat),
       rf.readEpReg epId .BUFFER_ADDR < regMod →
       isOkR (incrementWritePtr cfg rf epId) = true →
       writePtrAfter epId (incrementWritePtr cfg rf epId) =
         some (advancePtr cfg.maxMessageSize (rf.readEpReg epId .BUFFER_ADDR)
               (rf.readEpReg epId .BUFFER_SIZE) (rf.readEpReg epId .BUFFER_WRITE_PTR))) ∧
    (∀ (mms a sz : Nat), a + sz * mms < regMod →
       (advancePtr mms a sz)^[sz] a = a) := by
  have hmod : ∀ x : Nat, x % regMod % regMod = x % regMod := fun x =>
    Nat.mod_eq_of_lt (Nat.mod_lt x (by decide))
  refine ⟨?_, ?_, ?_⟩
  · intro cfg rf epId ha hok
    cases h : incrementReadPtr cfg rf epId with
    | error e => rw [h] at hok; exact Bool.noConfusion hok
    | ok rf2 =>
      simp only [incrementReadPtr] at h
      split at h
      · exact Except.noConfusion h
      · injection h with h2
        subst h2
        simp only [readPtrAfter, advancePtr]
        rw [readEpReg_setEpReg_ne _ _ _ _ _ _ (by simp), readEpReg_setEpReg_same]
        split
        · exact congrArg some (Nat.mod_eq_of_lt ha)
        · exact congrArg some (hmod _)
  · intro cfg rf epId ha hok
    cases h : incrementWritePtr cfg rf epId with
    | error e => rw [h] at hok; exact Bool.noConfusion hok
    | ok rf2 =>
      simp only [incrementWritePtr] at h
      split at h
      · injection h with h2
        subst h2
        simp only [writePtrAfter, advancePtr]
        rw [readEpReg_setEpReg_ne _ _ _ _ _ _ (by simp), readEpReg_setEpReg_same]
        split
        · exact congrArg some (Nat.mod_eq_of_lt ha)
        · exact congrArg some (hmod _)
      · exact Except.noConfusion h
  · intro mms a sz hov
    cases sz with
    | zero => simp
    | succ n =>
      rw [Function.iterate_succ_apply',
        advancePtr_iterate_lt mms a (n + 1) hov n (Nat.lt_succ_self n)]
      simp only [advancePtr]
      have hsum : a + n * mms + mms = a + (n + 1) * mms := by ring
      have hlt : a + n * mms + mms < regMod := by rw [hsum]; omega
      rw [Nat.mod_eq_of_lt hlt, Nat.mod_eq_of_lt hov, if_pos (by omega)]

/-- Witness for C5 on the concrete two-slot ring state and a separate
full four-step round of the advance arithmetic. -/
theorem c5_pointer_wraparound_witness :
    readPtrAfter 0 (incrementReadPtr c1cfg c4rf 0) =
      some (advancePtr c1cfg.maxMessageSize (c4rf.readEpReg 0 .BUFFER_ADDR)
            (c4rf.readEpReg 0 .BUFFER_SIZE) (c4rf.readEpReg 0 .BUFFER_READ_PTR)) ∧
    writePtrAfter 0 (incrementWritePtr c1cfg c4rf 0) =
      some (advancePtr c1cfg.maxMessageSize (c4rf.readEpReg 0 .BUFFER_ADDR)
            (c4rf.readEpReg 0 .BUFFER_SIZE) (c4rf.readEpReg 0 .BUFFER_WRITE_PTR)) ∧
    (advancePtr 16 256 4)^[4] 256 = 256 := by
  refine ⟨?_, ?_, ?_⟩
  · exact c5_pointer_wraparound.1 c1cfg c4rf 0 (by decide) (by decide)
  · exact c5_pointer_wraparound.2.1 c1cfg c4rf 0 (by decide) (by decide)
  · exact c5_pointer_wraparound.2.2 16 256 4 (by decide)

/-! Claim C8: consumer underflow. -/

/-- C8: the IncrementReadPtr command requires a non-zero message count
and fails with BufferUnderflow on an empty ring; on a non-empty ring it
advances the read pointer by the shared arithmetic and decrements the
count. -/
theorem c8_consumer_underflow :
    (∀ (cfg : DtuConfig) (rf : RegFile) (epId : Nat),
       rf.readEpReg epId .BUFFER_MESSAGE_COUNT = 0 →
       incrementReadPtr cfg rf epId = .error .bufferUnderflow) ∧
    (∀ (cfg : DtuConfig) (rf : RegFile) (epId : Nat),
       rf.readEpReg epId .BUFFER_MESSAGE_COUNT ≠ 0 →
       rf.readEpReg epId .BUFFER_MESSAGE_COUNT < regMod →
       rf.readEpReg epId .BUFFER_ADDR < regMod →
       isOkR (incrementReadPtr cfg rf epId) = true ∧
       countAfter epId (incrementReadPtr cfg rf epId) =
         some (rf.readEpReg epId .BUFFER_MESSAGE_COUNT - 1) ∧
       readPtrAfter epId (incrementReadPtr cfg rf epId) =
         some (advancePtr cfg.maxMessageSize (rf.readEpReg epId .BUFFER_ADDR)
               (rf.readEpReg epId .BUFFER_SIZE) (rf.readEpReg epId .BUFFER_READ_PTR))) := by
  have hmod : ∀ x : Nat, x % regMod % regMod = x % regMod := fun x =>
    Nat.mod_eq_of_lt (Nat.mod_lt x (by decide))
  constructor
  · intro cfg rf epId h
    simp only [incrementReadPtr, if_pos h]
  · intro cfg rf epId h hcnt ha
    refine ⟨?_, ?_, ?_⟩
    · simp only [incrementReadPtr, if_neg h, isOkR]
    · simp only [incrementReadPtr, if_neg h, countAfter]
      rw [readEpReg_setEpReg_same]
      exact congrArg some (Nat.mod_eq_of_lt (by omega))
    · simp only [incrementReadPtr, if_neg h, readPtrAfter, advancePtr]
      rw [readEpReg_setEpReg_ne _ _ _ _ _ _ (by simp), readEpReg_setEpReg_same]
      split
      · exact congrArg some (Nat.mod_eq_of_lt ha)
      · exact congrArg some (hmod _)

/-- Witness for C8: underflow on the empty endpoint 1 of the concrete
state and a successful consume on the occupied endpoint 0. -/
theorem c8_consumer_underflow_witness :
    incrementReadPtr c1cfg c4rf 1 = .error .bufferUnderflow ∧
    (isOkR (incrementReadPtr c1cfg c4rf 0) = true ∧
     countAfter 0 (incrementReadPtr c1cfg c4rf 0) = some 0 ∧
     readPtrAfter 0 (incrementReadPtr c1cfg c4rf 0) =
       some (advancePtr c1cfg.maxMessageSize (c4rf.readEpReg 0 .BUFFER_ADDR)
             (c4rf.readEpReg 0 .BUFFER_SIZE) (c4rf.readEpReg 0 .BUFFER_READ_PTR))) := by
  constructor
  · exact c8_consumer_underflow.1 c1cfg c4rf 1 (by decide)
  · exact c8_consumer_underflow.2 c1cfg c4rf 0 (by decide) (by decide) (by decide)


/-! Claim C7: transmit preconditions. -/

/-- C7: starting a transmission requires a non-zero message size
(EmptyMessage otherwise) and message size plus header size below
maxMessageSize (MessageTooLarge otherwise); in particular a message of
exactly maxMessageSize fails with MessageTooLarge and produces no
scratchpad or network request. -/
theorem c7_transmit_preconditions :
    (∀ (cfg : DtuConfig) (spm : Nat → Nat) (rf : RegFile) (epId : Nat),
       rf.readEpReg epId .MESSAGE_SIZE = 0 →
       startMessageTransmission cfg spm rf epId = .error .emptyMessage) ∧
    (∀ (cfg : DtuConfig) (spm : Nat → Nat) (rf : RegFile) (epId : Nat),
       rf.readEpReg epId .MESSAGE_SIZE ≠ 0 →
       ¬((rf.readEpReg epId .MESSAGE_SIZE + messageHeaderSize) % regMod <
          cfg.maxMessageSize) →
       startMessageTransmission cfg spm rf epId = .error .messageTooLarge) ∧
    (∀ (cfg : DtuConfig) (spm : Nat → Nat) (rf : RegFile) (epId : Nat),
       rf.readEpReg epId .MESSAGE_SIZE = cfg.maxMessageSize →
       0 < cfg.maxMessageSize →
       cfg.maxMessageSize + messageHeaderSize < regMod →
       startMessageTransmission cfg spm rf epId = .error .messageTooLarge ∧
       effectsOf (startMessageTransmission cfg spm rf epId) = Effects.empty) := by
  refine ⟨?_, ?_, ?_⟩
  · intro cfg spm rf epId h
    simp only [startMessageTransmission]
    rw [if_pos h]
  · intro cfg spm rf epId h h2
    simp only [startMessageTransmission]
    rw [if_neg h, if_neg h2]
  · intro cfg spm rf epId hms h0 hlt
    have h1 : rf.readEpReg epId .MESSAGE_SIZE ≠ 0 := by omega
    have h2 : ¬((rf.readEpReg epId .MESSAGE_SIZE + messageHeaderSize) % regMod <
        cfg.maxMessageSize) := by
      rw [hms, Nat.mod_eq_of_lt hlt]
      omega
    have e : startMessageTransmission cfg spm rf epId = .error .messageTooLarge := by
      simp only [startMessageTransmission]
      rw [if_neg h1, if_neg h2]
    exact ⟨e, by rw [e]; rfl⟩

/-- Endpoint register file for the transmit-precondition witness:
endpoint 0 has an empty message, endpoint 1 a message of exactly
`maxMessageSize` (1024), endpoint 2 an oversized one of 2000 bytes. -/
def c7rf : RegFile :=
  { dtuRegs := fun _ => 0,
    epRegs := fun ep r =>
      match r with
      | .MESSAGE_SIZE => if ep = 1 then 1024 else if ep = 2 then 2000 else 0
      | .MESSAGE_ADDR => 4096
      | .MODE => 1
      | _ => 0 }

/-- Witness for C7: empty message on endpoint 0, oversized message on
endpoint 2, and a message of exactly maxMessageSize on endpoint 1, under
the configuration with maxMessageSize 1024. -/
theorem c7_transmit_preconditions_witness :
    startMessageTransmission c1cfg (fun a => a) c7rf 0 = .error .emptyMessage ∧
    startMessageTransmission c1cfg (fun a => a) c7rf 2 = .error .messageTooLarge ∧
    (startMessageTransmission c1cfg (fun a => a) c7rf 1 = .error .messageTooLarge ∧
     effectsOf (startMessageTransmission c1cfg (fun a => a) c7rf 1) = Effects.empty) := by
  refine ⟨?_, ?_, ?_⟩
  · exact c7_transmit_preconditions.1 c1cfg (fun a => a) c7rf 0 (by decide)
  · exact c7_transmit_preconditions.2.1 c1cfg (fun a => a) c7rf 2 (by decide) (by decide)
  · exact c7_transmit_preconditions.2.2 c1cfg (fun a => a) c7rf 1 (by decide) (by decide)
      (by decide)

/-! Claim C6: receive into a full ring buffer. -/

/-- C6: an inbound message frame addressed to an endpoint whose message
count equals the slot capacity fails with BufferOverflow; no scratchpad
request is issued and (the run aborting) no register is written. -/
theorem c6_receive_full_buffer :
    ∀ (cfg : DtuConfig) (spm : Nat → Nat) (rf : RegFile) (pkt : Packet)
      (h : MessageHeader) (payload : List Nat),
    pkt.data = .frame h payload →
    rf.readEpReg ((pkt.addr &&& (2 ^ cfg.nocEpAddrBits - 1)) % u32Mod)
        .BUFFER_MESSAGE_COUNT % u32Mod =
      rf.readEpReg ((pkt.addr &&& (2 ^ cfg.nocEpAddrBits - 1)) % u32Mod)
        .BUFFER_SIZE % u32Mod →
    recvNocMessage cfg spm rf pkt = .error .bufferOverflow ∧
    effectsOf (recvNocMessage cfg spm rf pkt) = Effects.empty := by
  intro cfg spm rf pkt h payload hd hc
  have e : recvNocMessage cfg spm rf pkt = .error .bufferOverflow := by
    simp only [recvNocMessage, hd]
    rw [if_pos hc]
  exact ⟨e, by rw [e]; rfl⟩

/-- Register file for the full-buffer witness: endpoint 5 has capacity 4
and message count 4 (full). -/
def c6rf : RegFile :=
  { dtuRegs := fun _ => 0,
    epRegs := fun ep r =>
      if ep = 5 then
        match r with
        | .BUFFER_SIZE => 4
        | .BUFFER_MESSAGE_COUNT => 4
        | .BUFFER_ADDR => 512
        | .BUFFER_WRITE_PTR => 512
        | _ => 0
      else 0 }

/-- Inbound frame addressed to endpoint 5 (low 4 address bits). -/
def c6pkt : Packet :=
  { addr := 0x35, size := 68, cmd := .WriteReq,
    data := .frame { coreId := 1, epId := 2, length := 64 } [7, 7, 7],
    headerDelay := 0, payloadDelay := 0 }

/-- Witness for C6: the frame to the full endpoint 5 fails with
BufferOverflow and produces no effects. -/
theorem c6_receive_full_buffer_witness :
    recvNocMessage c1cfg (fun a => a) c6rf c6pkt = .error .bufferOverflow ∧
    effectsOf (recvNocMessage c1cfg (fun a => a) c6rf c6pkt) = Effects.empty := by
  exact c6_receive_full_buffer c1cfg (fun a => a) c6rf c6pkt
    { coreId := 1, epId := 2, length := 64 } [7, 7, 7] (by decide) (by decide)


/-! Effect shapes of the pipelines: every run of an entry point either
aborts or produces one of a fixed, small set of effect logs.  These
characterisations drive the tag-exclusivity and zero-delay proofs. -/

/-- Effects of the tail of a successful atomic transmit: one tagged
outbound frame and the final finish event. -/
def nocEff (n : Packet) : Effects :=
  ⟨[], [], [(n, { isMessage := true, isMemoryRequest := false })], [],
   [.finishMessageTransmissionEvent], [], []⟩

/-- Effects of a full successful atomic transmit from endpoint `epId`. -/
def transmitEff (p : Packet) (epId : Nat) (n : Packet) : Effects :=
  ⟨[(p, { epId := epId, isLocalRequest := true, isForwardedRequest := false })], [],
   [(n, { isMessage := true, isMemoryRequest := false })], [],
   [.finishMessageTransmissionEvent], [], []⟩

/-- Effects of a timed-mode transmit start from endpoint `epId`: the
tagged scratchpad read is scheduled and nothing has completed yet. -/
def schedTransmitEff (p : Packet) (epId : Nat) : Effects :=
  ⟨[], [(p, { epId := epId, isLocalRequest := true, isForwardedRequest := false })],
   [], [], [], [], []⟩

/-- Effects of a successful atomic receive into endpoint `epId`. -/
def recvEff (p : Packet) (epId : Nat) : Effects :=
  ⟨[(p, { epId := epId, isLocalRequest := false, isForwardedRequest := true })], [],
   [], [], [], [], []⟩

/-- Effects of a timed-mode receive into endpoint `epId`: the tagged
forwarded scratchpad write is scheduled. -/
def schedRecvEff (p : Packet) (epId : Nat) : Effects :=
  ⟨[], [(p, { epId := epId, isLocalRequest := false, isForwardedRequest := true })],
   [], [], [], [], []⟩

/-- Case analysis of the local-completion leg under atomic timing. -/
theorem completeLocalSpmRequest_atomic_cases (cfg : DtuConfig) (rf : RegFile)
    (pkt : Packet) (h : cfg.atomicMode = true) :
    (∃ e, completeLocalSpmRequest cfg rf pkt = .error e) ∨
    (∃ n, completeLocalSpmRequest cfg rf pkt = .ok (rf, nocEff n)) := by
  simp only [completeLocalSpmRequest, h, completeNocRequest]
  split
  · split
    · exact Or.inr ⟨_, rfl⟩
    · exact Or.inl ⟨_, rfl⟩
  · exact Or.inl ⟨_, rfl⟩

/-- Case analysis of the forwarded-completion leg under atomic timing. -/
theorem completeForwardedSpmRequest_atomic_cases (cfg : DtuConfig) (rf : RegFile)
    (pkt : Packet) (epId : Nat) (h : cfg.atomicMode = true) :
    (∃ e, completeForwardedSpmRequest cfg rf pkt epId = .error e) ∨
    (∃ rf2, completeForwardedSpmRequest cfg rf pkt epId = .ok (rf2, Effects.empty)) := by
  simp only [completeForwardedSpmRequest, h]
  split
  · cases hw : incrementWritePtr cfg rf epId with
    | error e => exact Or.inl ⟨e, rfl⟩
    | ok rf2 => exact Or.inr ⟨rf2, rfl⟩
  · exact Or.inl ⟨_, rfl⟩

/-- Case analysis of a transmit start in either timing mode. -/
theorem startMessageTransmission_cases (cfg : DtuConfig) (spm : Nat → Nat)
    (rf : RegFile) (epId : Nat) :
    (∃ e, startMessageTransmission cfg spm rf epId = .error e) ∨
    (cfg.atomicMode = true ∧ ∃ rf2 p n,
       startMessageTransmission cfg spm rf epId = .ok (rf2, transmitEff p epId n)) ∨
    (cfg.atomicMode = false ∧ ∃ rf2 p,
       startMessageTransmission cfg spm rf epId = .ok (rf2, schedTransmitEff p epId)) := by
  simp only [startMessageTransmission, completeSpmRequest, SpmSenderState.exclusiveTag]
  split
  · exact Or.inl ⟨_, rfl⟩
  · split
    · split
      · rename_i hat
        rcases completeLocalSpmRequest_atomic_cases cfg (rf.setDtuReg .STATUS 1)
            (sendAtomicSpmRequest spm
              (generateRequest (rf.readEpReg epId .MESSAGE_ADDR)
                (rf.readEpReg epId .MESSAGE_SIZE) .ReadReq)) hat with ⟨e, he⟩ | ⟨n, hn⟩
        · rw [he]; exact Or.inl ⟨e, rfl⟩
        · rw [hn]
          exact Or.inr (Or.inl ⟨hat, _, _, n, rfl⟩)
      · rename_i hat
        have hf : cfg.atomicMode = false := by
          revert hat; cases cfg.atomicMode <;> simp
        exact Or.inr (Or.inr ⟨hf, _, _, rfl⟩)
    · exact Or.inl ⟨_, rfl⟩

/-- Case analysis of the operation dispatcher in either timing mode. -/
theorem startOperation_cases (cfg : DtuConfig) (spm : Nat → Nat) (rf : RegFile)
    (cmd : Command) :
    (∃ e, startOperation cfg spm rf cmd = .error e) ∨
    (cfg.atomicMode = true ∧ ∃ rf2 p n,
       startOperation cfg spm rf cmd = .ok (rf2, transmitEff p cmd.epId n)) ∨
    (cfg.atomicMode = false ∧ ∃ rf2 p,
       startOperation cfg spm rf cmd = .ok (rf2, schedTransmitEff p cmd.epId)) := by
  simp only [startOperation]
  split
  · exact Or.inl ⟨_, rfl⟩
  · split
    · exact startMessageTransmission_cases cfg spm rf cmd.epId
    · exact Or.inl ⟨_, rfl⟩

/-- Case analysis of command execution in either timing mode. -/
theorem executeCommand_cases (cfg : DtuConfig) (spm : Nat → Nat) (rf : RegFile) :
    (∃ e, executeCommand cfg spm rf = .error e) ∨
    (∃ rf2, executeCommand cfg spm rf = .ok (rf2, Effects.empty)) ∨
    (cfg.atomicMode = true ∧ ∃ rf2 p n,
       executeCommand cfg spm rf = .ok (rf2, transmitEff p (getCommand cfg rf).epId n)) ∨
    (cfg.atomicMode = false ∧ ∃ rf2 p,
       executeCommand cfg spm rf =
         .ok (rf2, schedTransmitEff p (getCommand cfg rf).epId)) := by
  simp only [executeCommand]
  split
  · split
    · exact Or.inr (Or.inl ⟨rf, rfl⟩)
    · split
      · rcases startOperation_cases cfg spm rf (getCommand cfg rf) with
          ⟨e, he⟩ | ⟨hat, rf2, p, n, hok⟩ | ⟨hf, rf2, p, hok⟩
        · rw [he]; exact Or.inl ⟨e, rfl⟩
        · rw [hok]; exact Or.inr (Or.inr (Or.inl ⟨hat, rf2, p, n, rfl⟩))
        · rw [hok]; exact Or.inr (Or.inr (Or.inr ⟨hf, rf2, p, rfl⟩))
      · split
        · cases hr : incrementReadPtr cfg rf (getCommand cfg rf).epId with
          | error e => exact Or.inl ⟨e, rfl⟩
          | ok rf2 => exact Or.inr (Or.inl ⟨rf2, rfl⟩)
        · exact Or.inl ⟨_, rfl⟩
  · exact Or.inl ⟨_, rfl⟩

/-- Case analysis of message reception in either timing mode. -/
theorem recvNocMessage_cases (cfg : DtuConfig) (spm : Nat → Nat) (rf : RegFile)
    (pkt : Packet) :
    (∃ e, recvNocMessage cfg spm rf pkt = .error e) ∨
    (∃ rf2 p, recvNocMessage cfg spm rf pkt =
       .ok (rf2, recvEff p ((pkt.addr &&& (2 ^ cfg.nocEpAddrBits - 1)) % u32Mod))) ∨
    (∃ rf2 p, recvNocMessage cfg spm rf pkt =
       .ok (rf2, schedRecvEff p ((pkt.addr &&& (2 ^ cfg.nocEpAddrBits - 1)) % u32Mod))) := by
  simp only [recvNocMessage, completeSpmRequest, SpmSenderState.exclusiveTag]
  split
  · exact Or.inl ⟨_, rfl⟩
  · split
    · exact Or.inl ⟨_, rfl⟩
    · split
      · rename_i hat
        rcases completeForwardedSpmRequest_atomic_cases cfg rf (sendAtomicSpmRequest spm { pkt with addr := rf.readEpReg ((pkt.addr &&& (2 ^ cfg.nocEpAddrBits - 1)) % u32Mod) .BUFFER_WRITE_PTR }) ((pkt.addr &&& (2 ^ cfg.nocEpAddrBits - 1)) % u32Mod) hat with ⟨e, he⟩ | ⟨rf2, h2⟩
        · rw [he]; exact Or.inl ⟨e, rfl⟩
        · rw [h2]; exact Or.inr (Or.inl ⟨rf2, _, rfl⟩)
      · exact Or.inr (Or.inr ⟨rf, _, rfl⟩)

/-- Case analysis of the NoC-request entry point in either timing
mode. -/
theorem handleNocRequest_cases (cfg : DtuConfig) (spm : Nat → Nat) (rf : RegFile)
    (pkt : Packet) (ns : NocSenderState) :
    (∃ e, handleNocRequest cfg spm rf pkt ns = .error e) ∨
    (∃ rf2 p, handleNocRequest cfg spm rf pkt ns =
       .ok (rf2, recvEff p ((pkt.addr &&& (2 ^ cfg.nocEpAddrBits - 1)) % u32Mod))) ∨
    (∃ rf2 p, handleNocRequest cfg spm rf pkt ns =
       .ok (rf2, schedRecvEff p ((pkt.addr &&& (2 ^ cfg.nocEpAddrBits - 1)) % u32Mod))) := by
  simp only [handleNocRequest]
  split
  · split
    · split
      · exact recvNocMessage_cases cfg spm rf pkt
      · exact Or.inl ⟨_, rfl⟩
    · exact Or.inl ⟨_, rfl⟩
  · exact Or.inl ⟨_, rfl⟩


/-! Claim C2: pending events in zero-delay (atomic) mode. -/

/-- Concrete transmit-ready state: the command register encodes
StartOperation on endpoint 0 (raw value 1), endpoint 0 is configured to
transmit 64 bytes from scratchpad address 4096 to core 5, endpoint 3. -/
def txrf : RegFile :=
  { dtuRegs := fun r => if r = .COMMAND then 1 else 0,
    epRegs := fun ep r =>
      if ep = 0 then
        match r with
        | .MODE => 1
        | .MESSAGE_ADDR => 4096
        | .MESSAGE_SIZE => 64
        | .TARGET_COREID => 5
        | .TARGET_EPID => 3
        | _ => 0
      else 0 }

/-- C2 fails as stated: in atomic mode the transmit pipeline, triggered
by command dispatch, does leave an event pending — the source's
completeNocRequest unconditionally schedules
finishMessageTransmissionEvent even when every other leg ran as a
synchronous call chain. -/
theorem c2_atomic_transmit_leaves_pending_event :
    c1cfg.atomicMode = true ∧
    (effectsOf (executeCommand c1cfg (fun a => a) txrf)).scheduledEvents ≠ [] :=
  ⟨rfl, by decide⟩

/-- C2 (amended): in atomic mode, command dispatch and the receive
pipeline schedule no events, and a transmit run schedules at most — and,
when the transmission starts successfully, exactly — the one
finish-transmission completion event; no other completion is ever left
pending across pipeline legs. -/
theorem c2_atomic_single_pending_event :
    (∀ (cfg : DtuConfig) (spm : Nat → Nat) (rf : RegFile),
       cfg.atomicMode = true →
       (effectsOf (executeCommand cfg spm rf)).scheduledEvents = [] ∨
       (effectsOf (executeCommand cfg spm rf)).scheduledEvents =
         [EventKind.finishMessageTransmissionEvent]) ∧
    (∀ (cfg : DtuConfig) (spm : Nat → Nat) (rf : RegFile) (pkt : Packet)
       (ns : NocSenderState),
       cfg.atomicMode = true →
       (effectsOf (handleNocRequest cfg spm rf pkt ns)).scheduledEvents = []) ∧
    (∀ (cfg : DtuConfig) (spm : Nat → Nat) (rf : RegFile) (epId : Nat),
       cfg.atomicMode = true →
       isOkE (startMessageTransmission cfg spm rf epId) = true →
       (effectsOf (startMessageTransmission cfg spm rf epId)).scheduledEvents =
         [EventKind.finishMessageTransmissionEvent]) := by
  refine ⟨?_, ?_, ?_⟩
  · intro cfg spm rf _
    rcases executeCommand_cases cfg spm rf with
      ⟨e, he⟩ | ⟨rf2, hok⟩ | ⟨_, rf2, p, n, hok⟩ | ⟨_, rf2, p, hok⟩
    · rw [he]; exact Or.inl rfl
    · rw [hok]; exact Or.inl rfl
    · rw [hok]; exact Or.inr rfl
    · rw [hok]; exact Or.inl rfl
  · intro cfg spm rf pkt ns _
    rcases handleNocRequest_cases cfg spm rf pkt ns with
      ⟨e, he⟩ | ⟨rf2, p, hok⟩ | ⟨rf2, p, hok⟩
    · rw [he]; rfl
    · rw [hok]; rfl
    · rw [hok]; rfl
  · intro cfg spm rf epId hat hOk
    rcases startMessageTransmission_cases cfg spm rf epId with
      ⟨e, he⟩ | ⟨_, rf2, p, n, hok⟩ | ⟨hf, rf2, p, hok⟩
    · rw [he] at hOk; exact Bool.noConfusion hOk
    · rw [hok]; rfl
    · rw [hat] at hf; exact Bool.noConfusion hf

/-- Witness for the amended C2 on the concrete transmit state (exactly
one pending finish event) and a concrete receive (no pending event). -/
theorem c2_atomic_single_pending_event_witness :
    ((effectsOf (executeCommand c1cfg (fun a => a) txrf)).scheduledEvents = [] ∨
     (effectsOf (executeCommand c1cfg (fun a => a) txrf)).scheduledEvents =
       [EventKind.finishMessageTransmissionEvent]) ∧
    (effectsOf (handleNocRequest c1cfg (fun a => a) c6rf c6pkt
       { isMessage := true, isMemoryRequest := false })).scheduledEvents = [] ∧
    (effectsOf (startMessageTransmission c1cfg (fun a => a) txrf 0)).scheduledEvents =
      [EventKind.finishMessageTransmissionEvent] := by
  refine ⟨?_, ?_, ?_⟩
  · exact c2_atomic_single_pending_event.1 c1cfg (fun a => a) txrf rfl
  · exact c2_atomic_single_pending_event.2.1 c1cfg (fun a => a) c6rf c6pkt
      { isMessage := true, isMemoryRequest := false } rfl
  · exact c2_atomic_single_pending_event.2.2 c1cfg (fun a => a) txrf 0 rfl (by decide)

/-! Claim C9: tag exclusivity. -/

/-- Every tag recorded in an effect log — atomically issued or scheduled,
scratchpad or NoC — has exactly one of its two flags set. -/
def Effects.tagsExclusive (e : Effects) : Bool :=
  (e.spmRequests.all fun q => q.2.exclusiveTag) &&
  (e.schedSpmRequests.all fun q => q.2.exclusiveTag) &&
  (e.nocRequests.all fun q => q.2.exclusiveTag) &&
  (e.schedNocRequests.all fun q => q.2.exclusiveTag)

/-- C9: tag exclusivity.  Every tag created at issue time by command
execution or NoC-request handling satisfies mutual exclusivity, in both
timing modes; and both completion entry points reject a non-exclusive
tag (the source's assertions), so every request they complete carried
exactly one of the two flags. -/
theorem c9_tag_exclusivity :
    (∀ (cfg : DtuConfig) (spm : Nat → Nat) (rf : RegFile),
       (effectsOf (executeCommand cfg spm rf)).tagsExclusive = true) ∧
    (∀ (cfg : DtuConfig) (spm : Nat → Nat) (rf : RegFile) (pkt : Packet)
       (ns : NocSenderState),
       (effectsOf (handleNocRequest cfg spm rf pkt ns)).tagsExclusive = true) ∧
    (∀ (cfg : DtuConfig) (rf : RegFile) (pkt : Packet) (ss : SpmSenderState),
       ss.exclusiveTag = false →
       completeSpmRequest cfg rf pkt ss = .error .assertionFailed) ∧
    (∀ (cfg : DtuConfig) (spm : Nat → Nat) (rf : RegFile) (pkt : Packet)
       (ns : NocSenderState),
       pkt.cmd = .WriteReq →
       ns.exclusiveTag = false →
       handleNocRequest cfg spm rf pkt ns = .error .assertionFailed) := by
  refine ⟨?_, ?_, ?_, ?_⟩
  · intro cfg spm rf
    rcases executeCommand_cases cfg spm rf with
      ⟨e, he⟩ | ⟨rf2, hok⟩ | ⟨_, rf2, p, n, hok⟩ | ⟨_, rf2, p, hok⟩
    · rw [he]; rfl
    · rw [hok]; rfl
    · rw [hok]; rfl
    · rw [hok]; rfl
  · intro cfg spm rf pkt ns
    rcases handleNocRequest_cases cfg spm rf pkt ns with
      ⟨e, he⟩ | ⟨rf2, p, hok⟩ | ⟨rf2, p, hok⟩
    · rw [he]; rfl
    · rw [hok]; rfl
    · rw [hok]; rfl
  · intro cfg rf pkt ss h
    simp only [completeSpmRequest, h]
    rfl
  · intro cfg spm rf pkt ns hcmd h
    simp only [handleNocRequest, hcmd, h]
    rfl

/-- Witness for C9: the concrete transmit and receive runs carry only
exclusive tags, and concrete double-flagged tags are rejected by both
completion entry points. -/
theorem c9_tag_exclusivity_witness :
    (effectsOf (executeCommand c1cfg (fun a => a) txrf)).tagsExclusive = true ∧
    (effectsOf (handleNocRequest c1cfg (fun a => a) c6rf c6pkt
       { isMessage := true, isMemoryRequest := false })).tagsExclusive = true ∧
    completeSpmRequest c1cfg c4rf c6pkt
      { epId := 0, isLocalRequest := true, isForwardedRequest := true } =
      .error .assertionFailed ∧
    handleNocRequest c1cfg (fun a => a) c6rf c6pkt
      { isMessage := true, isMemoryRequest := true } = .error .assertionFailed := by
  refine ⟨?_, ?_, ?_, ?_⟩
  · exact c9_tag_exclusivity.1 c1cfg (fun a => a) txrf
  · exact c9_tag_exclusivity.2.1 c1cfg (fun a => a) c6rf c6pkt
      { isMessage := true, isMemoryRequest := false }
  · exact c9_tag_exclusivity.2.2.1 c1cfg c4rf c6pkt
      { epId := 0, isLocalRequest := true, isForwardedRequest := true } rfl
  · exact c9_tag_exclusivity.2.2.2 c1cfg (fun a => a) c6rf c6pkt
      { isMessage := true, isMemoryRequest := true } rfl rfl


/-! Claim C3: transmit happy path. -/

/-- C3: from any state whose (decoded) command is StartOperation on a
valid endpoint configured to transmit 64 bytes from scratchpad address
0x1000, the atomic run issues exactly one scratchpad read of 64 bytes at
0x1000, exactly one outbound frame of 68 bytes — a MessageHeader
{sourceCoreId, sourceEpId, length = 64} followed by the 64 payload
bytes — addressed to (targetCoreId, targetEpId), and after the remote
acknowledgment (running the single scheduled finish event) the control
register is 0 and the busy flag is clear. -/
theorem c3_transmit_happy_path
    (cfg : DtuConfig) (spm : Nat → Nat) (rf : RegFile)
    (h1 : cfg.atomicMode = true)
    (h2 : (getCommand cfg rf).opcode = opcodeSTART_OPERATION)
    (h3 : (getCommand cfg rf).epId < cfg.numEndpoints)
    (h4 : rf.readEpReg (getCommand cfg rf).epId .MODE = modeTRANSMIT_MESSAGE)
    (h5 : rf.readEpReg (getCommand cfg rf).epId .MESSAGE_ADDR = 0x1000)
    (h6 : rf.readEpReg (getCommand cfg rf).epId .MESSAGE_SIZE = 64)
    (h7 : 68 < cfg.maxMessageSize) :
    executeCommand cfg spm rf =
      .ok (rf.setDtuReg .STATUS 1,
        transmitEff
          { addr := 0x1000, size := 64, cmd := .ReadReq, data := .raw [],
            headerDelay := 0, payloadDelay := 0 }
          ((getCommand cfg rf).epId)
          { addr := getNocAddr cfg
              (rf.readEpReg (getCommand cfg rf).epId .TARGET_COREID % u32Mod)
              (rf.readEpReg (getCommand cfg rf).epId .TARGET_EPID % u32Mod),
            size := 68, cmd := .WriteReq,
            data := .frame
              { coreId := cfg.coreId % 256, epId := (getCommand cfg rf).epId % 256,
                length := 64 }
              ((List.range 64).map fun i => spm (0x1000 + i) % 256),
            headerDelay := 0, payloadDelay := 0 }) ∧
    (finishMessageTransmission
      (rfOf rf (executeCommand cfg spm rf))).readDtuReg .COMMAND = 0 ∧
    (finishMessageTransmission
      (rfOf rf (executeCommand cfg spm rf))).readDtuReg .STATUS = 0 := by
  have key : executeCommand cfg spm rf =
      .ok (rf.setDtuReg .STATUS 1,
        transmitEff
          { addr := 0x1000, size := 64, cmd := .ReadReq, data := .raw [],
            headerDelay := 0, payloadDelay := 0 }
          ((getCommand cfg rf).epId)
          { addr := getNocAddr cfg
              (rf.readEpReg (getCommand cfg rf).epId .TARGET_COREID % u32Mod)
              (rf.readEpReg (getCommand cfg rf).epId .TARGET_EPID % u32Mod),
            size := 68, cmd := .WriteReq,
            data := .frame
              { coreId := cfg.coreId % 256, epId := (getCommand cfg rf).epId % 256,
                length := 64 }
              ((List.range 64).map fun i => spm (0x1000 + i) % 256),
            headerDelay := 0, payloadDelay := 0 }) := by
    simp only [executeCommand, startOperation, startMessageTransmission,
      completeSpmRequest, completeLocalSpmRequest, completeNocRequest,
      generateRequest, sendAtomicSpmRequest, SpmSenderState.exclusiveTag,
      getCommand_setDtuReg_STATUS, readEpReg_setDtuReg, transmitEff,
      Effects.app, Effects.empty, PktData.bytes,
      h1, h2, h3, h4, h5, h6, h7,
      opcodeIDLE, opcodeSTART_OPERATION, opcodeINC_READ_PTR,
      modeRECEIVE_MESSAGE, modeTRANSMIT_MESSAGE,
      messageHeaderSize, regMod, u32Mod]
    simp [List.take_of_length_le]
    exact h7
  refine ⟨key, ?_, ?_⟩
  · rw [key]
    simp [rfOf, finishMessageTransmission, regMod]
  · rw [key]
    simp [rfOf, finishMessageTransmission, regMod]


/-- Witness for C3 on the concrete transmit state: endpoint 0, command
register 1, identity scratchpad; the frame goes to NoC address 83 (core
5, endpoint 3 under 4 endpoint-address bits). -/
theorem c3_transmit_happy_path_witness :
    executeCommand c1cfg (fun a => a) txrf =
      .ok (txrf.setDtuReg .STATUS 1,
        transmitEff
          { addr := 0x1000, size := 64, cmd := .ReadReq, data := .raw [],
            headerDelay := 0, payloadDelay := 0 }
          0
          { addr := 83, size := 68, cmd := .WriteReq,
            data := .frame { coreId := 0, epId := 0, length := 64 }
              ((List.range 64).map fun i => (0x1000 + i) % 256),
            headerDelay := 0, payloadDelay := 0 }) ∧
    (finishMessageTransmission
      (rfOf txrf (executeCommand c1cfg (fun a => a) txrf))).readDtuReg .COMMAND = 0 ∧
    (finishMessageTransmission
      (rfOf txrf (executeCommand c1cfg (fun a => a) txrf))).readDtuReg .STATUS = 0 :=
  c3_transmit_happy_path c1cfg (fun a => a) txrf rfl (by decide) (by decide) (by decide)
    (by decide) (by decide) (by decide)

/-! Claim C10: CPU-request address rebase and restore. -/

/-- Response-packet address of a CPU-request run. -/
def respAddrOf (r : Except DtuError (Packet × RegFile × Effects)) : Option Nat :=
  match r with
  | .ok x => some x.1.addr
  | .error _ => none

/-- Bool-valued success test for a CPU-request run. -/
def isOkC (r : Except DtuError (Packet × RegFile × Effects)) : Bool :=
  match r with
  | .ok _ => true
  | .error _ => false

/-- Register file resulting from a CPU-request run, with fallback. -/
def rfOfC (fallback : RegFile) (r : Except DtuError (Packet × RegFile × Effects)) :
    RegFile :=
  match r with
  | .ok x => x.2.1
  | .error _ => fallback

/-- C10: handleCpuRequest applies the register-file handler to the
packet rebased by subtracting the CPU base address (64-bit wrapping
subtraction) — replacing the handler by one that always sees exactly
that rebased packet changes nothing — and every response the local core
observes carries the original, restored request address, in both timing
modes. -/
theorem c10_cpu_addr_rebase_restore :
    ∀ (cfg : DtuConfig) (spm : Nat → Nat)
      (rfHandle : RegFile → Packet → Bool × RegFile) (rf : RegFile) (pkt : Packet),
    (isOkC (handleCpuRequest cfg spm rfHandle rf pkt) = true →
      respAddrOf (handleCpuRequest cfg spm rfHandle rf pkt) = some pkt.addr) ∧
    handleCpuRequest cfg spm rfHandle rf pkt =
      handleCpuRequest cfg spm
        (fun r _ => rfHandle r
          { pkt with addr := (pkt.addr + regMod - cfg.cpuBaseAddr % regMod) % regMod })
        rf pkt := by
  intro cfg spm rfHandle rf pkt
  constructor
  · intro hok
    simp only [handleCpuRequest] at hok ⊢
    by_cases hat : cfg.atomicMode = true
    · rw [if_pos hat] at hok ⊢
      by_cases hcw : (rfHandle rf
          { pkt with
            addr := (pkt.addr + regMod - cfg.cpuBaseAddr % regMod) % regMod }).1 = true
      · rw [if_pos hcw] at hok ⊢
        cases hx : executeCommand cfg spm (rfHandle rf
            { pkt with
              addr := (pkt.addr + regMod - cfg.cpuBaseAddr % regMod) % regMod }).2 with
        | error e => rw [hx] at hok; exact Bool.noConfusion hok
        | ok pr =>
          obtain ⟨rf2, eff⟩ := pr
          rfl
      · rw [if_neg hcw]
        rfl
    · rw [if_neg hat]
      rfl
  · rfl

/-- Register-file handler for the C10 witness: records the address it
was shown in the COMMAND register and reports no command write. -/
def c10handler (r : RegFile) (p : Packet) : Bool × RegFile :=
  (false, r.setDtuReg .COMMAND p.addr)

/-- Configuration for the C10 witness: timed mode, CPU base address
0x2000. -/
def c10cfg : DtuConfig :=
  { numEndpoints := 8, maxMessageSize := 1024, numCmdOpcodeBits := 2,
    numCmdEpidBits := 8, numCmdOffsetBits := 16, coreId := 0, cpuBaseAddr := 0x2000,
    nocEpAddrBits := 4, atomicMode := false }

/-- CPU access packet for the C10 witness, addressed at base + 0x18. -/
def c10pkt : Packet :=
  { addr := 0x2018, size := 8, cmd := .WriteReq, data := .raw [1, 0, 0, 0, 0, 0, 0, 0],
    headerDelay := 0, payloadDelay := 0 }

/-- Witness for C10: the response carries the original address 0x2018
while the register file observed the rebased address 0x18 (recorded in
the COMMAND register by the instrumented handler). -/
theorem c10_cpu_addr_rebase_restore_witness :
    respAddrOf (handleCpuRequest c10cfg (fun a => a) c10handler c4rf c10pkt) =
      some c10pkt.addr ∧
    handleCpuRequest c10cfg (fun a => a) c10handler c4rf c10pkt =
      handleCpuRequest c10cfg (fun a => a)
        (fun r _ => c10handler r
          { c10pkt with
            addr := (c10pkt.addr + regMod - c10cfg.cpuBaseAddr % regMod) % regMod })
        c4rf c10pkt ∧
    (rfOfC c4rf (handleCpuRequest c10cfg (fun a => a) c10handler c4rf c10pkt)).readDtuReg
      .COMMAND = 0x18 := by
  refine ⟨?_, ?_, ?_⟩
  · exact (c10_cpu_addr_rebase_restore c10cfg (fun a => a) c10handler c4rf c10pkt).1
      (by decide)
  · exact (c10_cpu_addr_rebase_restore c10cfg (fun a => a) c10handler c4rf c10pkt).2
  · decide

end DtuModel
